import Mathlib

/-!
Verification development for the sims-netlify-ready HR evaluation backend
(`netlify/functions/api.js` plus the SQL constraint file). The JavaScript
handlers are shallowly embedded as pure Lean functions over an explicit
store state; JavaScript numbers used as scores are modelled as rationals,
timestamps as integer milliseconds since the Unix epoch, and the Supabase
store as lists of records. External primitives (bcrypt comparison, the
possibility of a store fault on an insert) are passed in explicitly.
-/

namespace SimsAPI

/- ================= Data model ================= -/

/-- Row of the `employees` table: id, email, role (a free-form string,
constrained by the SQL check to one of admin, hr, supervisor, operator,
observer), nullable manager reference, and the bcrypt password hash. -/
structure Employee where
  id : String
  email : String
  role : String
  manager_id : Option String
  password_hash : String
deriving DecidableEq, Repr

/-- Row of the `employee_weekly_evaluations` table. `created_at` is the
insertion timestamp (milliseconds since epoch, set by the store default
at insert time). -/
structure Evaluation where
  employee_id : String
  week_start : String
  overall_score : ℚ
  created_at : Int
deriving DecidableEq, Repr

/-- Row of the `warning_letters` table. -/
structure WarningLetter where
  employee_id : String
  severity : String
  status : String
deriving DecidableEq, Repr

/-- State of the external store. `warnFault` models whether the next
insert into `warning_letters` fails at the store (an external error such
as a connectivity failure); the JavaScript handler never inspects the
result of that insert, which is exactly what claim C8 is about. -/
structure DB where
  employees : List Employee
  evals : List Evaluation
  warnings : List WarningLetter
  warnFault : Bool
deriving DecidableEq, Repr

/-- Hydrated request user: `req.user` after the `hydrateUser` middleware
(the token id plus the role and manager reference re-read from the store). -/
structure HydUser where
  id : String
  role : String
  manager_id : Option String
deriving DecidableEq, Repr

/-- Decoded JWT payload: `jwt.sign(\x7b id: user.id \x7d, JWT_SECRET,
\x7b expiresIn: "1h" \x7d)` carries only the employee id and the expiry
instant. -/
structure Token where
  id : String
  exp : Int
deriving DecidableEq, Repr

/-- JSON body of `POST /api/evaluations` as far as the handler reads it:
`employee_id` (absent is modelled as `none`), `overall_score` (`none`
models an absent field or a non-numeric JSON value, `some q` a numeric
one), and a possible client-supplied `week_start`, which the handler
never reads. -/
structure EvalBody where
  employee_id : Option String
  overall_score : Option ℚ
  week_start : Option String
deriving DecidableEq, Repr

/-- Response bodies produced by the embedded handlers. -/
inductive RespBody where
  | msg (message : String)
  | msgDetail (message detail : String)
  | tok (t : Token)
  | rows (l : List (String × String))
  | success
deriving DecidableEq, Repr

/-- HTTP response: status code plus JSON body. -/
structure HttpResponse where
  status : Nat
  body : RespBody
deriving DecidableEq, Repr

/- ================= Store primitives ================= -/

/-- Supabase `.eq("id", i).single()` on `employees`: yields the row iff
exactly one row matches. -/
def singleById (es : List Employee) (i : String) : Option Employee :=
  match es.filter (fun e => e.id == i) with
  | [e] => some e
  | _ => none

/-- Supabase `.eq("email", em).single()` on `employees`. -/
def singleByEmail (es : List Employee) (em : String) : Option Employee :=
  match es.filter (fun e => e.email == em) with
  | [e] => some e
  | _ => none

/-- Detail message of the store error raised by the unique index
`uniq_eval_employee_week` on `employee_weekly_evaluations(employee_id,
week_start)`. -/
def dupDetail : String :=
  "duplicate key value violates unique constraint \"uniq_eval_employee_week\""

/-- Insert into `employee_weekly_evaluations`: the store enforces the
unique index `uniq_eval_employee_week` on (employee_id, week_start)
(from the SQL constraint file), so a duplicate pair makes the insert
fail; otherwise the row is added. -/
def insertEvaluation (db : DB) (ev : Evaluation) : Except String DB :=
  if db.evals.any (fun e => e.employee_id == ev.employee_id && e.week_start == ev.week_start)
  then Except.error dupDetail
  else Except.ok { db with evals := ev :: db.evals }

/-- Insert into `warning_letters`; fails iff the store fault flag is set. -/
def insertWarning (db : DB) (w : WarningLetter) : Except String DB :=
  if db.warnFault then Except.error "warning insert failed"
  else Except.ok { db with warnings := w :: db.warnings }

/-- One insertion step of sorting evaluations by `created_at` descending. -/
def insertDesc (x : Evaluation) : List Evaluation → List Evaluation
  | [] => [x]
  | y :: ys => if y.created_at ≤ x.created_at then x :: y :: ys else y :: insertDesc x ys

/-- Sort evaluations by `created_at` descending (model of the store
`order("created_at", descending)`). -/
def sortDesc : List Evaluation → List Evaluation
  | [] => []
  | x :: xs => insertDesc x (sortDesc xs)

/-- Store read performed by the escalation step: among the given rows of
`employee_weekly_evaluations`, those of this employee, ordered by
`created_at` descending, limited to 3. -/
def fetchLast3 (l : List Evaluation) (eid : String) : List Evaluation :=
  (sortDesc (l.filter (fun e => e.employee_id == eid))).take 3

/- ================= Utilities ================= -/

/-- Milliseconds per day. -/
def msPerDay : Int := 86400000

/-- Calendar day number (days since 1970-01-01 UTC) of an instant given
in milliseconds since the epoch; this is the truncation
`Date.UTC(getUTCFullYear, getUTCMonth, getUTCDate)` performs. -/
def dayOfInstant (t : Int) : Int := t / msPerDay

/-- Day number of the Monday of the week of instant `t`: `getUTCDay` of
day number `d` is `(d + 4) % 7` (day 0, 1970-01-01, was a Thursday), and
the source subtracts `diffToMonday = (day + 6) % 7` days. -/
def getWeekStartDay (t : Int) : Int :=
  let days := dayOfInstant t
  let day := (days + 4) % 7
  let diffToMonday := (day + 6) % 7
  days - diffToMonday

/-- Left-pad a number to two digits. -/
def pad2 (n : Nat) : String := if n < 10 then "0" ++ toString n else toString n

/-- Left-pad a number to four digits. -/
def pad4 (n : Nat) : String :=
  if n < 10 then "000" ++ toString n
  else if n < 100 then "00" ++ toString n
  else if n < 1000 then "0" ++ toString n
  else toString n

/-- Proleptic Gregorian (year, month, day) of a day number (days since
1970-01-01), by the standard civil-from-days algorithm; valid for the
nonnegative-`z` range, which covers every date this application can see. -/
def civilFromDays (days : Int) : Nat × Nat × Nat :=
  let z : Nat := (days + 719468).toNat
  let era := z / 146097
  let doe := z % 146097
  let yoe := (doe - doe / 1460 + doe / 36524 - doe / 146096) / 365
  let y := yoe + era * 400
  let doy := doe - (365 * yoe + yoe / 4 - yoe / 100)
  let mp := (5 * doy + 2) / 153
  let d := doy - (153 * mp + 2) / 5 + 1
  let m := if mp < 10 then mp + 3 else mp - 9
  (if m ≤ 2 then y + 1 else y, m, d)

/-- Render a day number as `YYYY-MM-DD` (the `toISOString().slice(0, 10)`
of its UTC midnight). -/
def toISODate (days : Int) : String :=
  let c := civilFromDays days
  pad4 c.1 ++ "-" ++ pad2 c.2.1 ++ "-" ++ pad2 c.2.2

/-- The `getWeekStartDate` utility of the source: the `YYYY-MM-DD` of the
Monday (UTC) of the week of instant `t`. -/
def getWeekStartDate (t : Int) : String := toISODate (getWeekStartDay t)

/-- Model of the JavaScript `toLowerCase` primitive on the strings this
application handles. -/
def jsToLower (s : String) : String := String.mk (s.data.map Char.toLower)

/-- Model of the JavaScript `trim` primitive: drop whitespace at both ends. -/
def jsTrim (s : String) : String :=
  String.mk (((s.data.dropWhile Char.isWhitespace).reverse.dropWhile Char.isWhitespace).reverse)

/-- The `normalizeEmail` utility: `String(email || "").trim().toLowerCase()`;
an absent field is modelled as `none`. -/
def normalizeEmail (email : Option String) : String := jsToLower (jsTrim (email.getD ""))

/-- The low-score threshold 2.5 of the escalation rule, in reduced form
5/2. -/
def lowThreshold : ℚ := ⟨5, 2, by decide, by decide⟩

/-- Predicate of the escalation filter: `Number(e.overall_score) <= 2.5`. -/
def isLowScore (e : Evaluation) : Bool := decide (e.overall_score ≤ lowThreshold)

/- ================= Auth pipeline ================= -/

/-- Token issued at login: payload is only the employee id, expiring one
hour (3600000 ms) after issuance. -/
def issueToken (i : String) (now : Int) : Token := ⟨i, now + 3600000⟩

/-- The `hydrateUser` middleware: re-read id, role and manager reference
of the authenticated employee from the store; `none` models the 401 path
(lookup error or no row). -/
def hydrateUser (db : DB) (i : String) : Option HydUser :=
  (singleById db.employees i).map (fun e => ⟨e.id, e.role, e.manager_id⟩)

/-- The roles `requireRole` admits on `POST /api/evaluations`. -/
def evalRoles : List String := ["supervisor", "hr", "admin"]

/-- The `assertCanEvaluate` relationship gate: admin and hr always pass; a
supervisor passes iff a fresh single-row lookup of the target employee
succeeds and its manager reference equals the caller id; every other role
is denied. -/
def assertCanEvaluate (db : DB) (user : HydUser) (employeeId : String) : Bool :=
  if user.role == "admin" || user.role == "hr" then true
  else if user.role == "supervisor" then
    match singleById db.employees employeeId with
    | some emp => emp.manager_id == some user.id
    | none => false
  else false

/-- The `POST /api/evaluations` handler body (after `auth`, `hydrateUser`
and `requireRole` have passed): payload validation, relationship gate,
evaluation insert, escalation rule, conditional warning-letter insert
whose store result the source discards. -/
def postEvaluations (db : DB) (user : HydUser) (body : EvalBody) (now : Int) :
    HttpResponse × DB :=
  match body.employee_id, body.overall_score with
  | some eid, some score =>
    if eid.isEmpty then (⟨400, RespBody.msg "Invalid payload"⟩, db)
    else if !(assertCanEvaluate db user eid) then (⟨403, RespBody.msg "Forbidden"⟩, db)
    else
      match insertEvaluation db ⟨eid, getWeekStartDate now, score, now⟩ with
      | Except.error detail => (⟨500, RespBody.msgDetail "Insert failed" detail⟩, db)
      | Except.ok db1 =>
        let low := (fetchLast3 db1.evals eid).countP isLowScore
        if 2 ≤ low then
          match insertWarning db1 ⟨eid, if 3 ≤ low then "critical" else "high", "active"⟩ with
          | Except.ok db2 => (⟨200, RespBody.success⟩, db2)
          | Except.error _ => (⟨200, RespBody.success⟩, db1)
        else (⟨200, RespBody.success⟩, db1)
  | _, _ => (⟨400, RespBody.msg "Invalid payload"⟩, db)

/-- Pipeline tail after authentication: hydration result, role gate, then
the handler body. -/
def evalAfterAuth (db : DB) (hu : Option HydUser) (body : EvalBody) (now : Int) :
    HttpResponse × DB :=
  match hu with
  | none => (⟨401, RespBody.msg "Unauthorized"⟩, db)
  | some u =>
    if evalRoles.contains u.role then postEvaluations db u body now
    else (⟨403, RespBody.msg "Forbidden"⟩, db)

/-- Full `POST /api/evaluations` pipeline: bearer token presence, expiry
check (part of `jwt.verify`), hydration, role gate, handler body. -/
def evalRequest (db : DB) (tok : Option Token) (now : Int) (body : EvalBody) :
    HttpResponse × DB :=
  match tok with
  | none => (⟨401, RespBody.msg "Unauthorized"⟩, db)
  | some t =>
    if t.exp ≤ now then (⟨401, RespBody.msg "Invalid token"⟩, db)
    else evalAfterAuth db (hydrateUser db t.id) body now

/-- Authorization outcome of the gates alone, as a function of the store
and the caller and target ids. -/
inductive AuthzOutcome where
  | unauthorized
  | forbiddenRole
  | forbiddenRel
  | permitted
deriving DecidableEq, Repr

/-- Gate decision for a caller id against a target employee id, computed
from nothing but the current store. -/
def authzOutcome (db : DB) (callerId targetId : String) : AuthzOutcome :=
  match hydrateUser db callerId with
  | none => AuthzOutcome.unauthorized
  | some u =>
    if evalRoles.contains u.role then
      if assertCanEvaluate db u targetId then AuthzOutcome.permitted
      else AuthzOutcome.forbiddenRel
    else AuthzOutcome.forbiddenRole

/-- The `POST /api/login` handler: single-row lookup by normalized email,
bcrypt comparison (passed in as `cmp`), identical `Invalid credentials`
failures, token issuance on success. -/
def login (cmp : String → String → Bool) (db : DB)
    (email password : Option String) (now : Int) : HttpResponse :=
  match singleByEmail db.employees (normalizeEmail email) with
  | none => ⟨400, RespBody.msg "Invalid credentials"⟩
  | some user =>
    if cmp (password.getD "") user.password_hash then
      ⟨200, RespBody.tok (issueToken user.id now)⟩
    else ⟨400, RespBody.msg "Invalid credentials"⟩

/-- The `GET /api/analytics/department-risk` handler body: a store fault
is surfaced as a 500 with detail, otherwise the active warning letters
projected to (employee_id, severity). -/
def departmentRisk (db : DB) (fault : Option String) : HttpResponse :=
  match fault with
  | some d => ⟨500, RespBody.msgDetail "Query failed" d⟩
  | none =>
    ⟨200, RespBody.rows ((db.warnings.filter (fun w => w.status == "active")).map
      (fun w => (w.employee_id, w.severity)))⟩

/-- Payload validation of the submission handler:
`!employee_id || typeof overall_score !== "number"`. -/
def invalidPayload (body : EvalBody) : Bool :=
  (match body.employee_id with | none => true | some s => s.isEmpty) || body.overall_score.isNone

/-- Uniqueness invariant enforced by the `uniq_eval_employee_week` index:
no two persisted evaluations share employee and week. -/
def UniqueEvals (l : List Evaluation) : Prop :=
  l.Pairwise (fun a b => ¬(a.employee_id = b.employee_id ∧ a.week_start = b.week_start))

/- ================= Concrete fixtures for witnesses ================= -/

/-- Fixture: an admin account. -/
def cAdmin : Employee := ⟨"A1", "admin@x.co", "admin", none, "hashA"⟩

/-- Fixture: a supervisor account. -/
def cSup : Employee := ⟨"S1", "sup@x.co", "supervisor", none, "hashS"⟩

/-- Fixture: an operator whose manager reference points at the fixture
supervisor. -/
def cEmp : Employee := ⟨"E1", "emp@x.co", "operator", some "S1", "hashE"⟩

/-- Fixture: hydrated admin caller. -/
def cAdminUser : HydUser := ⟨"A1", "admin", none⟩

/-- Fixture: a low-score evaluation of E1 persisted in the week of
2026-09-28 (day 20724). -/
def cOldLowEval : Evaluation := ⟨"E1", "2026-09-28", 2, 20724 * 86400000⟩

/-- Fixture: request instant 2026-10-05 (a Monday, day 20731) 00:30 UTC. -/
def cNow : Int := 20731 * 86400000 + 1800000

/-- Fixture: submission body targeting E1 with score 1. -/
def cBody : EvalBody := ⟨some "E1", some 1, none⟩

/-- Fixture: an evaluation of E1 already persisted in the week of cNow
(week starting 2026-10-05). -/
def cThisWeekEval : Evaluation := ⟨"E1", "2026-10-05", 3, 20731 * 86400000⟩

/- ================= Helper lemmas ================= -/

theorem getWeekStartDay_eq (t : Int) :
    getWeekStartDay t = dayOfInstant t - ((dayOfInstant t + 4) % 7 + 6) % 7 := rfl

theorem mem_insertDesc (x y : Evaluation) (l : List Evaluation) :
    y ∈ insertDesc x l ↔ y = x ∨ y ∈ l := by
  induction l with
  | nil => simp [insertDesc]
  | cons z zs ih =>
    by_cases h : z.created_at ≤ x.created_at
    · simp [insertDesc, h]
    · simp [insertDesc, h, ih]
      tauto

theorem mem_sortDesc (y : Evaluation) (l : List Evaluation) :
    y ∈ sortDesc l ↔ y ∈ l := by
  induction l with
  | nil => simp [sortDesc]
  | cons z zs ih => simp [sortDesc, mem_insertDesc, ih]

theorem sortDesc_cons_of_max (x : Evaluation) (l : List Evaluation)
    (h : ∀ y ∈ l, y.created_at < x.created_at) :
    sortDesc (x :: l) = x :: sortDesc l := by
  show insertDesc x (sortDesc l) = x :: sortDesc l
  cases hl : sortDesc l with
  | nil => rfl
  | cons z zs =>
    have hz : z ∈ sortDesc l := by rw [hl]; exact List.mem_cons_self z zs
    have : z.created_at < x.created_at := h z ((mem_sortDesc z l).mp hz)
    simp [insertDesc, le_of_lt this]

theorem assertCanEvaluate_congr (db1 db2 : DB) (u : HydUser) (tid : String)
    (h : singleById db1.employees tid = singleById db2.employees tid) :
    assertCanEvaluate db1 u tid = assertCanEvaluate db2 u tid := by
  unfold assertCanEvaluate
  rw [h]

/- ================= Claim theorems ================= -/

/-- Claim C5: for every pair of UTC instants (milliseconds since epoch)
that fall within the same Monday-to-Sunday span, `getWeekStartDate`
returns the same calendar date, namely the date of that Monday, no
matter the time of day or day of week; the span is given by its Monday
day number `m` (a day `d` is a Monday exactly when `(d + 4) % 7 = 1`). -/
theorem getWeekStartDate_same_week (m t1 t2 : Int)
    (hm : (m + 4) % 7 = 1)
    (h1 : m ≤ dayOfInstant t1) (h1' : dayOfInstant t1 ≤ m + 6)
    (h2 : m ≤ dayOfInstant t2) (h2' : dayOfInstant t2 ≤ m + 6) :
    getWeekStartDay t1 = m ∧ getWeekStartDay t2 = m ∧
      getWeekStartDate t1 = getWeekStartDate t2 ∧
      getWeekStartDate t1 = toISODate m := by
  have e1 : getWeekStartDay t1 = m := by rw [getWeekStartDay_eq]; omega
  have e2 : getWeekStartDay t2 = m := by rw [getWeekStartDay_eq]; omega
  refine ⟨e1, e2, ?_, ?_⟩
  · rw [getWeekStartDate, getWeekStartDate, e1, e2]
  · rw [getWeekStartDate, e1]

/-- Witness for C5: Monday 2026-10-05 00:30 UTC and Sunday 2026-10-11
23:59:59.999 UTC both map to 2026-10-05. -/
theorem getWeekStartDate_same_week_witness :
    getWeekStartDay (20731 * 86400000 + 1800000) = 20731 ∧
      getWeekStartDay (20737 * 86400000 + 86399999) = 20731 ∧
      getWeekStartDate (20731 * 86400000 + 1800000) =
        getWeekStartDate (20737 * 86400000 + 86399999) ∧
      getWeekStartDate (20731 * 86400000 + 1800000) = toISODate 20731 :=
  getWeekStartDate_same_week 20731 (20731 * 86400000 + 1800000)
    (20737 * 86400000 + 86399999)
    (by decide) (by decide) (by decide) (by decide) (by decide)

/-- Claim C1: the relationship gate `assertCanEvaluate` always permits an
admin or hr caller; a supervisor is permitted iff the fresh single-row
store lookup of the target succeeds with a manager reference equal to the
caller id; every other role is denied; and inside the submission handler
a denial is surfaced as HTTP 403 Forbidden with the store untouched. -/
theorem assertCanEvaluate_spec :
    (∀ (db : DB) (u : HydUser) (tid : String), u.role = "admin" ∨ u.role = "hr" →
      assertCanEvaluate db u tid = true) ∧
    (∀ (db : DB) (u : HydUser) (tid : String), u.role = "supervisor" →
      (assertCanEvaluate db u tid = true ↔
        ∃ emp, singleById db.employees tid = some emp ∧ emp.manager_id = some u.id)) ∧
    (∀ (db : DB) (u : HydUser) (tid : String),
      u.role ≠ "admin" → u.role ≠ "hr" → u.role ≠ "supervisor" →
      assertCanEvaluate db u tid = false) ∧
    (∀ (db : DB) (u : HydUser) (body : EvalBody) (now : Int) (eid : String) (sc : ℚ),
      body.employee_id = some eid → eid.isEmpty = false → body.overall_score = some sc →
      assertCanEvaluate db u eid = false →
      postEvaluations db u body now = (⟨403, RespBody.msg "Forbidden"⟩, db)) := by
  refine ⟨?_, ?_, ?_, ?_⟩
  · intro db u tid h
    rcases h with h | h <;> simp [assertCanEvaluate, h]
  · intro db u tid h
    cases hx : singleById db.employees tid with
    | none => simp [assertCanEvaluate, h, hx]
    | some emp =>
      simp [assertCanEvaluate, h, hx]
  · intro db u tid h1 h2 h3
    simp [assertCanEvaluate, h1, h2, h3]
  · intro db u body now eid sc hid hne hsc hdeny
    simp [postEvaluations, hid, hsc, hne, hdeny]

/-- Witness for C1: the fixture admin may evaluate E1; the fixture
supervisor may evaluate E1 because the manager reference of E1 is S1; an
operator caller is denied and receives 403. -/
theorem assertCanEvaluate_spec_witness :
    assertCanEvaluate ⟨[cAdmin, cSup, cEmp], [], [], false⟩ cAdminUser "E1" = true ∧
      (assertCanEvaluate ⟨[cAdmin, cSup, cEmp], [], [], false⟩ ⟨"S1", "supervisor", none⟩ "E1" = true ↔
        ∃ emp, singleById [cAdmin, cSup, cEmp] "E1" = some emp ∧ emp.manager_id = some "S1") ∧
      assertCanEvaluate ⟨[cAdmin, cSup, cEmp], [], [], false⟩ ⟨"E1", "operator", some "S1"⟩ "A1" = false ∧
      postEvaluations ⟨[cAdmin, cSup, cEmp], [], [], false⟩ ⟨"E1", "operator", some "S1"⟩
          ⟨some "A1", some 3, none⟩ cNow = (⟨403, RespBody.msg "Forbidden"⟩, ⟨[cAdmin, cSup, cEmp], [], [], false⟩) :=
  ⟨assertCanEvaluate_spec.1 ⟨[cAdmin, cSup, cEmp], [], [], false⟩ cAdminUser "E1" (Or.inl rfl),
    assertCanEvaluate_spec.2.1 ⟨[cAdmin, cSup, cEmp], [], [], false⟩ ⟨"S1", "supervisor", none⟩ "E1" rfl,
    assertCanEvaluate_spec.2.2.1 ⟨[cAdmin, cSup, cEmp], [], [], false⟩ ⟨"E1", "operator", some "S1"⟩ "A1"
      (by decide) (by decide) (by decide),
    assertCanEvaluate_spec.2.2.2 ⟨[cAdmin, cSup, cEmp], [], [], false⟩ ⟨"E1", "operator", some "S1"⟩
      ⟨some "A1", some 3, none⟩ cNow "A1" 3 rfl (by decide) rfl (by decide)⟩

/-- Claim C7: at the login handler, an unknown email and a known email
with a failing bcrypt comparison produce the identical error response,
HTTP 400 with body message Invalid credentials. -/
theorem login_indistinguishable (cmp : String → String → Bool) (db1 db2 : DB)
    (e1 p1 e2 p2 : Option String) (now1 now2 : Int) (u : Employee)
    (h1 : singleByEmail db1.employees (normalizeEmail e1) = none)
    (h2 : singleByEmail db2.employees (normalizeEmail e2) = some u)
    (h3 : cmp (p2.getD "") u.password_hash = false) :
    login cmp db1 e1 p1 now1 = ⟨400, RespBody.msg "Invalid credentials"⟩ ∧
      login cmp db2 e2 p2 now2 = ⟨400, RespBody.msg "Invalid credentials"⟩ ∧
      login cmp db1 e1 p1 now1 = login cmp db2 e2 p2 now2 := by
  have r1 : login cmp db1 e1 p1 now1 = ⟨400, RespBody.msg "Invalid credentials"⟩ := by
    simp [login, h1]
  have r2 : login cmp db2 e2 p2 now2 = ⟨400, RespBody.msg "Invalid credentials"⟩ := by
    simp [login, h2, h3]
  exact ⟨r1, r2, r1.trans r2.symm⟩

/-- Witness for C7: unknown email versus wrong password against the
fixture store, with a comparator that rejects everything. -/
theorem login_indistinguishable_witness :
    login (fun _ _ => false) ⟨[cAdmin], [], [], false⟩ (some "ghost@x.co") (some "pw") 0 =
        ⟨400, RespBody.msg "Invalid credentials"⟩ ∧
      login (fun _ _ => false) ⟨[cAdmin], [], [], false⟩ (some " ADMIN@x.co ") (some "wrong") 5 =
        ⟨400, RespBody.msg "Invalid credentials"⟩ ∧
      login (fun _ _ => false) ⟨[cAdmin], [], [], false⟩ (some "ghost@x.co") (some "pw") 0 =
        login (fun _ _ => false) ⟨[cAdmin], [], [], false⟩ (some " ADMIN@x.co ") (some "wrong") 5 :=
  login_indistinguishable (fun _ _ => false) ⟨[cAdmin], [], [], false⟩ ⟨[cAdmin], [], [], false⟩
    (some "ghost@x.co") (some "pw") (some " ADMIN@x.co ") (some "wrong") 0 5 cAdmin
    (by decide) (by decide) (by decide)

theorem postEvaluations_invalid (db : DB) (u : HydUser) (body : EvalBody) (now : Int)
    (h : invalidPayload body = true) :
    postEvaluations db u body now = (⟨400, RespBody.msg "Invalid payload"⟩, db) := by
  unfold invalidPayload at h
  cases hid : body.employee_id with
  | none => simp [postEvaluations, hid]
  | some s =>
    cases hsc : body.overall_score with
    | none => simp [postEvaluations, hid, hsc]
    | some q =>
      rw [hid, hsc] at h
      simp at h
      simp [postEvaluations, hid, hsc, h]

theorem postEvaluations_valid_not400 (db : DB) (u : HydUser) (body : EvalBody) (now : Int)
    (h : invalidPayload body = false) :
    (postEvaluations db u body now).1.status ≠ 400 := by
  unfold invalidPayload at h
  cases hid : body.employee_id with
  | none => rw [hid] at h; simp at h
  | some s =>
    cases hsc : body.overall_score with
    | none => rw [hid, hsc] at h; simp at h
    | some q =>
      rw [hid, hsc] at h
      simp at h
      unfold postEvaluations
      rw [hid, hsc]
      simp only [h, Bool.false_eq_true, if_false]
      split
      · simp
      · split
        · simp
        · split
          · split <;> simp
          · simp

/-- Claim C6: with an authenticated, role-admitted caller, the submission
pipeline answers 400 Invalid payload exactly when `employee_id` is absent
or empty or `overall_score` is not numeric; the rejection happens with the
store untouched and with a result that is the same for every store state,
so it cannot depend on (or leak) whether the target employee exists; and
the check sits after authentication and the role gate: a missing token
gives 401 and a disallowed role gives 403 even on an invalid payload. -/
theorem invalid_payload_gate :
    (∀ (db : DB) (t : Token) (now : Int) (body : EvalBody) (u : HydUser),
      now < t.exp → hydrateUser db t.id = some u → u.role ∈ evalRoles →
      ((evalRequest db (some t) now body).1 = ⟨400, RespBody.msg "Invalid payload"⟩ ↔
        invalidPayload body = true)) ∧
    (∀ (db : DB) (u : HydUser) (body : EvalBody) (now : Int), invalidPayload body = true →
      postEvaluations db u body now = (⟨400, RespBody.msg "Invalid payload"⟩, db)) ∧
    (∀ (db : DB) (t : Token) (now : Int) (body : EvalBody) (u : HydUser),
      now < t.exp → hydrateUser db t.id = some u → u.role ∉ evalRoles →
      (evalRequest db (some t) now body).1 = ⟨403, RespBody.msg "Forbidden"⟩) ∧
    (∀ (db : DB) (now : Int) (body : EvalBody),
      (evalRequest db none now body).1 = ⟨401, RespBody.msg "Unauthorized"⟩) ∧
    (∀ (db : DB) (t : Token) (now : Int) (body : EvalBody), t.exp ≤ now →
      (evalRequest db (some t) now body).1 = ⟨401, RespBody.msg "Invalid token"⟩) := by
  refine ⟨?_, postEvaluations_invalid, ?_, ?_, ?_⟩
  · intro db t now body u hexp hhyd hrole
    have hred : evalRequest db (some t) now body = postEvaluations db u body now := by
      simp [evalRequest, evalAfterAuth, not_le.mpr hexp, hhyd, hrole]
    rw [hred]
    constructor
    · intro h400
      by_contra hbad
      have hv : invalidPayload body = false := by
        cases hvv : invalidPayload body
        · rfl
        · exact absurd hvv hbad
      exact postEvaluations_valid_not400 db u body now hv (by rw [h400])
    · intro hinv
      rw [postEvaluations_invalid db u body now hinv]
  · intro db t now body u hexp hhyd hrole
    simp [evalRequest, evalAfterAuth, not_le.mpr hexp, hhyd, hrole]
  · intro db now body
    simp [evalRequest]
  · intro db t now body hexp
    simp [evalRequest, hexp]

/-- Witness for C6: with the fixture store and a fresh admin token, a body
with a non-numeric score is rejected with 400 Invalid payload. -/
theorem invalid_payload_gate_witness :
    (evalRequest ⟨[cAdmin, cEmp], [], [], false⟩ (some ⟨"A1", 10⟩) 0
        ⟨some "E1", none, none⟩).1 = ⟨400, RespBody.msg "Invalid payload"⟩ ↔
      invalidPayload ⟨some "E1", none, none⟩ = true :=
  invalid_payload_gate.1 ⟨[cAdmin, cEmp], [], [], false⟩ ⟨"A1", 10⟩ 0
    ⟨some "E1", none, none⟩ cAdminUser (by decide) (by decide) (by decide)

/-- Claim C4: the login token carries only the employee id and expires
3600000 ms (one hour) after issuance; two valid tokens with the same id
are interchangeable on any request; the pipeline outcome factors through
a fresh store hydration of the caller (role and manager are never read
from the token); the gate decision is a function of the store rows for
caller and target alone; and a role no longer in the allowed set at the
time of the request is rejected 403 on that very request. -/
theorem token_minimal_fresh_authz :
    (∀ (i : String) (now : Int), issueToken i now = ⟨i, now + 3600000⟩) ∧
    (∀ (db : DB) (t1 t2 : Token) (now : Int) (body : EvalBody),
      t1.id = t2.id → now < t1.exp → now < t2.exp →
      evalRequest db (some t1) now body = evalRequest db (some t2) now body) ∧
    (∀ (db : DB) (t : Token) (now : Int) (body : EvalBody), now < t.exp →
      evalRequest db (some t) now body = evalAfterAuth db (hydrateUser db t.id) body now) ∧
    (∀ (db1 db2 : DB) (cid tid : String),
      hydrateUser db1 cid = hydrateUser db2 cid →
      singleById db1.employees tid = singleById db2.employees tid →
      authzOutcome db1 cid tid = authzOutcome db2 cid tid) ∧
    (∀ (db : DB) (t : Token) (now : Int) (body : EvalBody) (u : HydUser), now < t.exp →
      hydrateUser db t.id = some u → u.role ∉ evalRoles →
      evalRequest db (some t) now body = (⟨403, RespBody.msg "Forbidden"⟩, db)) := by
  refine ⟨fun i now => rfl, ?_, ?_, ?_, ?_⟩
  · intro db t1 t2 now body hid h1 h2
    simp [evalRequest, not_le.mpr h1, not_le.mpr h2, hid]
  · intro db t now body h
    simp [evalRequest, not_le.mpr h]
  · intro db1 db2 cid tid hc ht
    unfold authzOutcome
    rw [hc]
    cases hu : hydrateUser db2 cid with
    | none => rfl
    | some u => simp only [assertCanEvaluate_congr db1 db2 u tid ht]
  · intro db t now body u hexp hhyd hrole
    simp [evalRequest, evalAfterAuth, not_le.mpr hexp, hhyd, hrole]

/-- Witness for C4: two distinct fresh tokens for A1 give the same
outcome, and after demoting the caller to observer in the store the very
same token is rejected 403. -/
theorem token_minimal_fresh_authz_witness :
    evalRequest ⟨[cAdmin, cEmp], [], [], false⟩ (some ⟨"A1", 10⟩) 0 cBody =
        evalRequest ⟨[cAdmin, cEmp], [], [], false⟩ (some ⟨"A1", 99⟩) 0 cBody ∧
      evalRequest ⟨[⟨"A1", "admin@x.co", "observer", none, "hashA"⟩], [], [], false⟩
          (some ⟨"A1", 10⟩) 0 cBody =
        (⟨403, RespBody.msg "Forbidden"⟩, ⟨[⟨"A1", "admin@x.co", "observer", none, "hashA"⟩], [], [], false⟩) :=
  ⟨token_minimal_fresh_authz.2.1 ⟨[cAdmin, cEmp], [], [], false⟩ ⟨"A1", 10⟩ ⟨"A1", 99⟩ 0 cBody
      rfl (by decide) (by decide),
    token_minimal_fresh_authz.2.2.2.2 ⟨[⟨"A1", "admin@x.co", "observer", none, "hashA"⟩], [], [], false⟩
      ⟨"A1", 10⟩ 0 cBody ⟨"A1", "observer", none⟩ (by decide) (by decide) (by decide)⟩

theorem postEvaluations_evals (db : DB) (u : HydUser) (body : EvalBody) (now : Int) :
    (postEvaluations db u body now).2.evals = db.evals ∨
    ∃ eid sc, body.employee_id = some eid ∧ body.overall_score = some sc ∧
      (db.evals.any fun e => e.employee_id == eid && e.week_start == getWeekStartDate now) = false ∧
      (postEvaluations db u body now).2.evals =
        Evaluation.mk eid (getWeekStartDate now) sc now :: db.evals := by
  cases hid : body.employee_id with
  | none => left; simp [postEvaluations, hid]
  | some eid =>
    cases hsc : body.overall_score with
    | none => left; simp [postEvaluations, hid, hsc]
    | some sc =>
      by_cases hemp : eid.isEmpty
      · left; simp [postEvaluations, hid, hsc, hemp]
      · by_cases hallow : assertCanEvaluate db u eid
        · cases hany : (db.evals.any fun e => e.employee_id == eid && e.week_start == getWeekStartDate now) with
          | true =>
            left
            simp [postEvaluations, hid, hsc, hemp, hallow, insertEvaluation, hany]
          | false =>
            right
            refine ⟨eid, sc, rfl, rfl, hany, ?_⟩
            simp only [postEvaluations, hid, hsc, hemp, hallow, insertEvaluation, hany,
              Bool.not_true, Bool.false_eq_true, if_false, if_true]
            split
            · by_cases hw : db.warnFault <;> simp [insertWarning, hw]
            · rfl
        · left; simp [postEvaluations, hid, hsc, hemp, hallow]

/-- Claim C3: the submission handler never reads a client-supplied
week_start (the outcome is invariant in that field of the body, the
persisted value being derived from the server clock); with the gates
passed, a second submission for the same employee in a week that already
holds an evaluation makes the store insert fail on the
uniq_eval_employee_week unique index, the handler answers 500 Insert
failed with the store detail and the store is left exactly as it was (no
warning-letter write, no evaluation write); and every run preserves the
at-most-one-evaluation-per-employee-and-week invariant. -/
theorem duplicate_week_blocked :
    (∀ (db : DB) (u : HydUser) (body : EvalBody) (ws : Option String) (now : Int),
      postEvaluations db u { body with week_start := ws } now = postEvaluations db u body now) ∧
    (∀ (db : DB) (u : HydUser) (body : EvalBody) (now : Int) (eid : String) (sc : ℚ),
      body.employee_id = some eid → eid.isEmpty = false → body.overall_score = some sc →
      assertCanEvaluate db u eid = true →
      (∃ e ∈ db.evals, e.employee_id = eid ∧ e.week_start = getWeekStartDate now) →
      postEvaluations db u body now = (⟨500, RespBody.msgDetail "Insert failed" dupDetail⟩, db)) ∧
    (∀ (db : DB) (u : HydUser) (body : EvalBody) (now : Int),
      UniqueEvals db.evals → UniqueEvals (postEvaluations db u body now).2.evals) := by
  refine ⟨?_, ?_, ?_⟩
  · intro db u body ws now
    cases body
    rfl
  · intro db u body now eid sc hid hne hsc hallow hdup
    have hany : (db.evals.any fun e => e.employee_id == eid && e.week_start == getWeekStartDate now) = true := by
      rw [List.any_eq_true]
      rcases hdup with ⟨e, he, h1, h2⟩
      exact ⟨e, he, by simp [h1, h2]⟩
    simp [postEvaluations, hid, hsc, hne, hallow, insertEvaluation, hany]
  · intro db u body now hu
    rcases postEvaluations_evals db u body now with h | ⟨eid, sc, _, _, hany, h⟩
    · rw [h]; exact hu
    · rw [h, UniqueEvals, List.pairwise_cons]
      refine ⟨?_, hu⟩
      intro b hb hcontra
      rcases hcontra with ⟨h1, h2⟩
      have := (List.any_eq_false.mp hany) b hb
      simp at this
      exact (this (by exact h1.symm)) h2.symm

/-- Witness for C3: E1 already has an evaluation in the week of cNow, so
a second submission that week returns 500 Insert failed and leaves the
store unchanged. -/
theorem duplicate_week_blocked_witness :
    postEvaluations ⟨[cAdmin, cEmp], [cThisWeekEval], [], false⟩ cAdminUser cBody cNow =
      (⟨500, RespBody.msgDetail "Insert failed" dupDetail⟩,
        ⟨[cAdmin, cEmp], [cThisWeekEval], [], false⟩) :=
  duplicate_week_blocked.2.1 ⟨[cAdmin, cEmp], [cThisWeekEval], [], false⟩ cAdminUser cBody cNow
    "E1" 1 rfl (by decide) rfl (by decide)
    ⟨cThisWeekEval, by decide, by decide, by decide⟩

theorem any_week_of_filter (l : List Evaluation) (eid ws : String) :
    (l.any fun e => e.employee_id == eid && e.week_start == ws) =
      ((l.filter fun e => e.employee_id == eid).any fun e => e.week_start == ws) := by
  induction l with
  | nil => rfl
  | cons x xs ih =>
    cases h : x.employee_id == eid with
    | false => simp only [List.any_cons, List.filter_cons, h, Bool.false_and,
        Bool.false_or, Bool.false_eq_true, if_false, ih]
    | true => simp only [List.any_cons, List.filter_cons, h, Bool.true_and,
        if_true, List.any_cons, ih]

/-- Claim C2: after a successful insert the handler reads the 3 most
recent evaluations of the target (which contain the just-inserted row,
its timestamp being the freshest), counts scores at or below 2.5, and
appends a warning letter with severity critical when that count reaches
3, severity high when it reaches 2, and nothing otherwise; the letter is
created with status active. -/
theorem escalation_rule_after_insert
    (db : DB) (u : HydUser) (body : EvalBody) (now : Int) (eid : String) (sc : ℚ)
    (hid : body.employee_id = some eid) (hne : eid.isEmpty = false)
    (hsc : body.overall_score = some sc)
    (hallow : assertCanEvaluate db u eid = true)
    (hnodup : ∀ e ∈ db.evals, ¬(e.employee_id = eid ∧ e.week_start = getWeekStartDate now))
    (hfresh : ∀ e ∈ db.evals, e.employee_id = eid → e.created_at < now)
    (hwf : db.warnFault = false) :
    (postEvaluations db u body now).1 = ⟨200, RespBody.success⟩ ∧
    Evaluation.mk eid (getWeekStartDate now) sc now ∈
      fetchLast3 (Evaluation.mk eid (getWeekStartDate now) sc now :: db.evals) eid ∧
    (postEvaluations db u body now).2.evals =
      Evaluation.mk eid (getWeekStartDate now) sc now :: db.evals ∧
    (postEvaluations db u body now).2.warnings =
      (if 2 ≤ (fetchLast3 (Evaluation.mk eid (getWeekStartDate now) sc now :: db.evals) eid).countP isLowScore then
        WarningLetter.mk eid
          (if 3 ≤ (fetchLast3 (Evaluation.mk eid (getWeekStartDate now) sc now :: db.evals) eid).countP isLowScore
            then "critical" else "high") "active" :: db.warnings
      else db.warnings) := by
  have hany : (db.evals.any fun e => e.employee_id == eid && e.week_start == getWeekStartDate now) = false := by
    rw [List.any_eq_false]
    intro e he
    have := hnodup e he
    simp
    intro h1
    exact fun h2 => this ⟨h1, h2⟩
  have hmax : ∀ y ∈ db.evals.filter (fun e => e.employee_id == eid),
      y.created_at < (Evaluation.mk eid (getWeekStartDate now) sc now).created_at := by
    intro y hy
    have hy' := List.mem_filter.mp hy
    exact hfresh y hy'.1 (by simpa using hy'.2)
  have hmem : Evaluation.mk eid (getWeekStartDate now) sc now ∈
      fetchLast3 (Evaluation.mk eid (getWeekStartDate now) sc now :: db.evals) eid := by
    unfold fetchLast3
    have hfilt : (Evaluation.mk eid (getWeekStartDate now) sc now :: db.evals).filter
        (fun e => e.employee_id == eid) =
        Evaluation.mk eid (getWeekStartDate now) sc now :: db.evals.filter (fun e => e.employee_id == eid) := by
      simp [List.filter_cons]
    rw [hfilt, sortDesc_cons_of_max _ _ hmax]
    simp [List.take_succ_cons]
  refine ⟨?_, hmem, ?_, ?_⟩ <;>
    (simp only [postEvaluations, hid, hsc, hne, Bool.false_eq_true, if_false, hallow,
      Bool.not_true, insertEvaluation, hany]
     by_cases hl2 : 2 ≤ (fetchLast3 (Evaluation.mk eid (getWeekStartDate now) sc now :: db.evals) eid).countP isLowScore <;>
      simp [hl2, insertWarning, hwf])

/-- Witness for C2: E1 has one prior low evaluation (score 2) from the
previous week; submitting score 1 succeeds and the escalation branch of
the conclusion applies. -/
theorem escalation_rule_after_insert_witness :
    (postEvaluations ⟨[cAdmin, cEmp], [cOldLowEval], [], false⟩ cAdminUser cBody cNow).1 =
        ⟨200, RespBody.success⟩ ∧
      Evaluation.mk "E1" (getWeekStartDate cNow) 1 cNow ∈
        fetchLast3 (Evaluation.mk "E1" (getWeekStartDate cNow) 1 cNow :: [cOldLowEval]) "E1" ∧
      (postEvaluations ⟨[cAdmin, cEmp], [cOldLowEval], [], false⟩ cAdminUser cBody cNow).2.evals =
        Evaluation.mk "E1" (getWeekStartDate cNow) 1 cNow :: [cOldLowEval] ∧
      (postEvaluations ⟨[cAdmin, cEmp], [cOldLowEval], [], false⟩ cAdminUser cBody cNow).2.warnings =
        (if 2 ≤ (fetchLast3 (Evaluation.mk "E1" (getWeekStartDate cNow) 1 cNow :: [cOldLowEval]) "E1").countP isLowScore then
          WarningLetter.mk "E1"
            (if 3 ≤ (fetchLast3 (Evaluation.mk "E1" (getWeekStartDate cNow) 1 cNow :: [cOldLowEval]) "E1").countP isLowScore
              then "critical" else "high") "active" :: ([] : List WarningLetter)
        else []) :=
  escalation_rule_after_insert ⟨[cAdmin, cEmp], [cOldLowEval], [], false⟩ cAdminUser cBody cNow
    "E1" 1 rfl (by decide) rfl (by decide) (by decide) (by decide) rfl

/-- Claim C10: when the target has exactly one earlier persisted
evaluation (for a different week, with a low score) and the newly
submitted score is also low, the escalation step reads exactly those two
rows, counts two low scores, and appends a high-severity active warning
letter. -/
theorem second_low_eval_creates_high_warning
    (db : DB) (u : HydUser) (body : EvalBody) (now : Int) (eid : String) (sc : ℚ)
    (old : Evaluation)
    (hid : body.employee_id = some eid) (hne : eid.isEmpty = false)
    (hsc : body.overall_score = some sc)
    (hallow : assertCanEvaluate db u eid = true)
    (hfilt : db.evals.filter (fun e => e.employee_id == eid) = [old])
    (hweek : (old.week_start == getWeekStartDate now) = false)
    (hlowold : old.overall_score ≤ lowThreshold)
    (hlownew : sc ≤ lowThreshold)
    (hfresh : old.created_at < now)
    (hwf : db.warnFault = false) :
    (postEvaluations db u body now).1 = ⟨200, RespBody.success⟩ ∧
    fetchLast3 (Evaluation.mk eid (getWeekStartDate now) sc now :: db.evals) eid =
      [Evaluation.mk eid (getWeekStartDate now) sc now, old] ∧
    (fetchLast3 (Evaluation.mk eid (getWeekStartDate now) sc now :: db.evals) eid).countP isLowScore = 2 ∧
    (postEvaluations db u body now).2.warnings = WarningLetter.mk eid "high" "active" :: db.warnings := by
  have hany : (db.evals.any fun e => e.employee_id == eid && e.week_start == getWeekStartDate now) = false := by
    rw [any_week_of_filter, hfilt]
    simp [hweek]
  have hfl : fetchLast3 (Evaluation.mk eid (getWeekStartDate now) sc now :: db.evals) eid =
      [Evaluation.mk eid (getWeekStartDate now) sc now, old] := by
    have hstep : (Evaluation.mk eid (getWeekStartDate now) sc now :: db.evals).filter
        (fun e => e.employee_id == eid) =
        [Evaluation.mk eid (getWeekStartDate now) sc now, old] := by
      simp [List.filter_cons, hfilt]
    unfold fetchLast3
    rw [hstep]
    simp [sortDesc, insertDesc, le_of_lt hfresh]
  have hcnt : (fetchLast3 (Evaluation.mk eid (getWeekStartDate now) sc now :: db.evals) eid).countP isLowScore = 2 := by
    rw [hfl]
    simp [List.countP_cons, isLowScore, decide_eq_true hlownew, decide_eq_true hlowold]
  refine ⟨?_, hfl, hcnt, ?_⟩ <;>
    (simp only [postEvaluations, hid, hsc, hne, Bool.false_eq_true, if_false, hallow,
      Bool.not_true, insertEvaluation, hany]
     simp [hcnt, insertWarning, hwf])

/-- Witness for C10: E1 with one prior low evaluation from the previous
week receives a high-severity active warning on the second low
submission. -/
theorem second_low_eval_creates_high_warning_witness :
    (postEvaluations ⟨[cAdmin, cEmp], [cOldLowEval], [], false⟩ cAdminUser cBody cNow).1 =
        ⟨200, RespBody.success⟩ ∧
      fetchLast3 (Evaluation.mk "E1" (getWeekStartDate cNow) 1 cNow :: [cOldLowEval]) "E1" =
        [Evaluation.mk "E1" (getWeekStartDate cNow) 1 cNow, cOldLowEval] ∧
      (fetchLast3 (Evaluation.mk "E1" (getWeekStartDate cNow) 1 cNow :: [cOldLowEval]) "E1").countP isLowScore = 2 ∧
      (postEvaluations ⟨[cAdmin, cEmp], [cOldLowEval], [], false⟩ cAdminUser cBody cNow).2.warnings =
        WarningLetter.mk "E1" "high" "active" :: ([] : List WarningLetter) :=
  second_low_eval_creates_high_warning ⟨[cAdmin, cEmp], [cOldLowEval], [], false⟩ cAdminUser cBody
    cNow "E1" 1 cOldLowEval rfl (by decide) rfl (by decide) (by decide) (by decide)
    (by decide) (by decide) (by decide) rfl

/-- Counterexample for C8: the identical submission that, with a healthy
store, creates a high-severity warning letter, still answers 200 with
success true when the warning-letter insert fails at the store, and no
failure is reported anywhere in the response. -/
theorem warn_insert_failure_swallowed_cex :
    (postEvaluations ⟨[cAdmin, cEmp], [cOldLowEval], [], true⟩ cAdminUser cBody cNow).1 =
        ⟨200, RespBody.success⟩ ∧
      (postEvaluations ⟨[cAdmin, cEmp], [cOldLowEval], [], true⟩ cAdminUser cBody cNow).2.warnings = [] ∧
      (postEvaluations ⟨[cAdmin, cEmp], [cOldLowEval], [], false⟩ cAdminUser cBody cNow).2.warnings =
        [⟨"E1", "high", "active"⟩] := by
  refine ⟨?_, ?_, ?_⟩ <;> decide

/-- Claim C8 as amended: evaluation-insert failures and risk-query
failures are surfaced to the caller as a generic message plus the
store-provided detail, but the warning-letter insert of the escalation
step is the exception: its store error is discarded and the handler
answers success true with no letter persisted. -/
theorem store_errors_surfaced_except_warning :
    (∀ (db : DB) (u : HydUser) (body : EvalBody) (now : Int) (eid : String) (sc : ℚ) (d : String),
      body.employee_id = some eid → eid.isEmpty = false → body.overall_score = some sc →
      assertCanEvaluate db u eid = true →
      insertEvaluation db (Evaluation.mk eid (getWeekStartDate now) sc now) = Except.error d →
      postEvaluations db u body now = (⟨500, RespBody.msgDetail "Insert failed" d⟩, db)) ∧
    (∀ (db : DB) (d : String),
      departmentRisk db (some d) = ⟨500, RespBody.msgDetail "Query failed" d⟩) ∧
    (∀ (db : DB) (u : HydUser) (body : EvalBody) (now : Int) (eid : String) (sc : ℚ),
      body.employee_id = some eid → eid.isEmpty = false → body.overall_score = some sc →
      assertCanEvaluate db u eid = true →
      (∀ e ∈ db.evals, ¬(e.employee_id = eid ∧ e.week_start = getWeekStartDate now)) →
      db.warnFault = true →
      (postEvaluations db u body now).1 = ⟨200, RespBody.success⟩ ∧
      (postEvaluations db u body now).2.warnings = db.warnings) := by
  refine ⟨?_, fun db d => rfl, ?_⟩
  · intro db u body now eid sc d hid hne hsc hallow hins
    simp [postEvaluations, hid, hsc, hne, hallow, hins]
  · intro db u body now eid sc hid hne hsc hallow hnodup hwf
    have hany : (db.evals.any fun e => e.employee_id == eid && e.week_start == getWeekStartDate now) = false := by
      rw [List.any_eq_false]
      intro e he
      have := hnodup e he
      simp
      intro h1
      exact fun h2 => this ⟨h1, h2⟩
    refine ⟨?_, ?_⟩ <;>
      (simp only [postEvaluations, hid, hsc, hne, Bool.false_eq_true, if_false, hallow,
        Bool.not_true, insertEvaluation, hany]
       by_cases hl2 : 2 ≤ (fetchLast3 (Evaluation.mk eid (getWeekStartDate now) sc now :: db.evals) eid).countP isLowScore <;>
        simp [hl2, insertWarning, hwf])

/-- Witness for the amended C8: a duplicate-week insert is answered 500
with the unique-index detail, a faulted risk query is answered 500 with
its detail, and a faulted warning-letter insert is answered 200 success
with the warning list unchanged. -/
theorem store_errors_surfaced_except_warning_witness :
    postEvaluations ⟨[cAdmin, cEmp], [cThisWeekEval], [], false⟩ cAdminUser cBody cNow =
        (⟨500, RespBody.msgDetail "Insert failed" dupDetail⟩,
          ⟨[cAdmin, cEmp], [cThisWeekEval], [], false⟩) ∧
      departmentRisk ⟨[], [], [], false⟩ (some "boom") =
        ⟨500, RespBody.msgDetail "Query failed" "boom"⟩ ∧
      (postEvaluations ⟨[cAdmin, cEmp], [cOldLowEval], [], true⟩ cAdminUser cBody cNow).1 =
        ⟨200, RespBody.success⟩ ∧
      (postEvaluations ⟨[cAdmin, cEmp], [cOldLowEval], [], true⟩ cAdminUser cBody cNow).2.warnings = [] :=
  ⟨store_errors_surfaced_except_warning.1 ⟨[cAdmin, cEmp], [cThisWeekEval], [], false⟩ cAdminUser
      cBody cNow "E1" 1 dupDetail rfl (by decide) rfl (by decide) rfl,
    store_errors_surfaced_except_warning.2.1 ⟨[], [], [], false⟩ "boom",
    (store_errors_surfaced_except_warning.2.2 ⟨[cAdmin, cEmp], [cOldLowEval], [], true⟩ cAdminUser
      cBody cNow "E1" 1 rfl (by decide) rfl (by decide) (by decide) rfl).1,
    (store_errors_surfaced_except_warning.2.2 ⟨[cAdmin, cEmp], [cOldLowEval], [], true⟩ cAdminUser
      cBody cNow "E1" 1 rfl (by decide) rfl (by decide) (by decide) rfl).2⟩

/-- Counterexample for C9: the handler happily persists an evaluation
whose overall score is 7, outside the documented 0 to 5 range, and
answers success. -/
theorem score_range_unchecked_cex :
    (postEvaluations ⟨[cAdmin, cEmp], [], [], false⟩ cAdminUser ⟨some "E1", some 7, none⟩ cNow).1 =
        ⟨200, RespBody.success⟩ ∧
      ((postEvaluations ⟨[cAdmin, cEmp], [], [], false⟩ cAdminUser ⟨some "E1", some 7, none⟩ cNow).2.evals.map
        (fun e => e.overall_score)) = [7] ∧
      ¬((0 : ℚ) ≤ 7 ∧ (7 : ℚ) ≤ 5) := by
  refine ⟨?_, ?_, ?_⟩ <;> decide

/-- Claim C9 as amended: the handler checks only that the submitted score
is numeric; the record it persists carries exactly the submitted rational
score, whatever its magnitude or sign, with the server-derived week and
timestamp, so no 0 to 5 range is enforced. -/
theorem persisted_score_is_submitted
    (db : DB) (u : HydUser) (body : EvalBody) (now : Int) (eid : String) (sc : ℚ)
    (hid : body.employee_id = some eid) (hne : eid.isEmpty = false)
    (hsc : body.overall_score = some sc)
    (hallow : assertCanEvaluate db u eid = true)
    (hnodup : ∀ e ∈ db.evals, ¬(e.employee_id = eid ∧ e.week_start = getWeekStartDate now)) :
    (postEvaluations db u body now).2.evals =
      Evaluation.mk eid (getWeekStartDate now) sc now :: db.evals := by
  have hany : (db.evals.any fun e => e.employee_id == eid && e.week_start == getWeekStartDate now) = false := by
    rw [List.any_eq_false]
    intro e he
    have := hnodup e he
    simp
    intro h1
    exact fun h2 => this ⟨h1, h2⟩
  simp only [postEvaluations, hid, hsc, hne, Bool.false_eq_true, if_false, hallow,
    Bool.not_true, insertEvaluation, hany]
  by_cases hl2 : 2 ≤ (fetchLast3 (Evaluation.mk eid (getWeekStartDate now) sc now :: db.evals) eid).countP isLowScore <;>
    (by_cases hw : db.warnFault <;> simp [hl2, insertWarning, hw])

/-- Witness for the amended C9: the out-of-range score 7 is persisted
verbatim. -/
theorem persisted_score_is_submitted_witness :
    (postEvaluations ⟨[cAdmin, cEmp], [], [], false⟩ cAdminUser ⟨some "E1", some 7, none⟩ cNow).2.evals =
      Evaluation.mk "E1" (getWeekStartDate cNow) 7 cNow :: [] :=
  persisted_score_is_submitted ⟨[cAdmin, cEmp], [], [], false⟩ cAdminUser ⟨some "E1", some 7, none⟩
    cNow "E1" 7 rfl (by decide) rfl (by decide) (by decide)

end SimsAPI
